import Mathlib

/-!
# Missing-witness ledger (`lib/Sema/TypeCheckProtocol.h`) and local rename
(`lib/Refactoring/LocalRename.cpp`)

A shallow embedding of the two source files: the ledger of missing witnesses
that `ConformanceChecker` keeps in an `llvm::SetVector`, keyed by
`DenseMapInfo<MissingWitness>`, and the availability / scope logic of the
rename refactoring.  Definitions come first, theorems afterwards.
-/

set_option autoImplicit false

namespace Swift

/-! ## Part 1: the missing-witness ledger -/

/-- Modelled from the spec: `ASTContext::MissingWitness` is declared in
`swift/AST/ASTContext.h`, which is not among the sources; the spec describes it
as "(requirement, optional context data for derivation-failure diagnostics)".
The requirement is a `ValueDecl *`, kept here as the pointer value; the context
data (the candidate matches) is a list of opaque match identifiers. -/
structure MissingWitness where
  /-- The requirement that is missing a witness (pointer identity). -/
  requirement : Nat
  /-- The context data carried for diagnostics. -/
  matches_ : List Nat
deriving DecidableEq, Repr

namespace DenseMapInfo

/-- `DenseMapInfo<MissingWitness>::getHashValue`:
`return RequirementPointerTraits::getHashValue(missing.requirement);`.
The pointer hash of LLVM is taken as the parameter `ptrHash`. -/
def getHashValue (ptrHash : Nat → Nat) (missing : MissingWitness) : Nat :=
  ptrHash missing.requirement

/-- `DenseMapInfo<MissingWitness>::isEqual`:
`return a.requirement == b.requirement;`. -/
def isEqual (a b : MissingWitness) : Bool :=
  a.requirement == b.requirement

end DenseMapInfo

/-- Modelled from the spec: `llvm::DenseSet`, the key set inside
`llvm::SetVector` (LLVM's ADT headers are not among the sources).  The stored
keys are kept as a list; the bucket layout is abstracted, since a lookup
compares a probe with stored keys only through `isEqual` (and equal keys have
equal hashes, see `getHashValue`). -/
structure DenseSet where
  keys : List MissingWitness
deriving DecidableEq, Repr

namespace DenseSet

/-- Lookup of a key: is a key equal to `x` (under `isEqual`) stored? -/
def contains (s : DenseSet) (x : MissingWitness) : Bool :=
  s.keys.any (fun k => DenseMapInfo.isEqual k x)

/-- The operation `DenseSet::insert`: returns the set and `true` when the key
was newly stored, the unchanged set and `false` when an equal key was there. -/
def insert (s : DenseSet) (x : MissingWitness) : DenseSet × Bool :=
  if s.contains x then (s, false) else (⟨x :: s.keys⟩, true)

end DenseSet

/-- Modelled from the spec: the Missing-Witness Ledger, "a deduplicated,
insertion-ordered collection", which the header declares as
`llvm::SetVector<ASTContext::MissingWitness>`.  `llvm::SetVector` is not among
the sources; it holds a key set `set_` and a vector `vector_`. -/
structure SetVector where
  set_ : DenseSet
  vector_ : List MissingWitness
deriving DecidableEq, Repr

namespace SetVector

/-- A freshly constructed ledger. -/
def empty : SetVector := ⟨⟨[]⟩, []⟩

/-- Modelled from the spec: insertion into the ledger ("deduplicates by
requirement identity", "append-only").  `llvm::SetVector::insert` is
`bool result = set_.insert(X).second; if (result) vector_.push_back(X);
return result;`. -/
def insert (s : SetVector) (X : MissingWitness) : SetVector × Bool :=
  let r := s.set_.insert X
  if r.2 then (⟨r.1, s.vector_ ++ [X]⟩, true) else (⟨r.1, s.vector_⟩, false)

/-- The method `SetVector::size`: the number of stored entries. -/
def size (s : SetVector) : Nat := s.vector_.length

/-- A sequence of insertions, performed left to right. -/
def insertAll (s : SetVector) (xs : List MissingWitness) : SetVector :=
  xs.foldl (fun acc x => (acc.insert x).1) s

/-- The requirements of the ledger entries, in ledger order. -/
def requirements (s : SetVector) : List Nat :=
  s.vector_.map MissingWitness.requirement

/-- The class invariant of `llvm::SetVector`: every key of the key set has an
equal entry in the vector, every entry of the vector is found in the key set,
and no two entries of the vector are equal keys. -/
def WF (s : SetVector) : Prop :=
  (∀ k ∈ s.set_.keys, s.vector_.any (fun v => DenseMapInfo.isEqual v k) = true) ∧
  (∀ v ∈ s.vector_, s.set_.contains v = true) ∧
  s.requirements.Nodup

instance (s : SetVector) : Decidable s.WF := by
  unfold WF; infer_instance

end SetVector

/-- The unsigned 64-bit range of `size_t`. -/
def SIZE_T_RANGE : Nat := 2 ^ 64

/-- The unsigned 32-bit range of `unsigned`. -/
def UNSIGNED_RANGE : Nat := 2 ^ 32

/-- Modelled from the spec: `llvm::ArrayRef`, the "read-only slice view" that
`getLocalMissingWitness` returns (LLVM's ADT headers are not among the
sources).  An `ArrayRef` is a pointer and a length; the pointer is kept as the
storage it points into and the element offset from the start of that storage. -/
structure ArrayRef where
  Storage : List MissingWitness
  Offset : Nat
  Length : Nat
deriving DecidableEq, Repr

namespace ArrayRef

/-- The elements an in-bounds view denotes. -/
def toList (a : ArrayRef) : List MissingWitness :=
  (a.Storage.drop a.Offset).take a.Length

/-- The operation `ArrayRef::slice(size_t N, size_t M)`:
`assert(N+M <= size() && "Invalid specifier"); return ArrayRef<T>(data()+N, M);`
The sum is a `size_t` sum; `none` is the failed assertion. -/
def slice (a : ArrayRef) (N M : Nat) : Option ArrayRef :=
  if (N + M) % SIZE_T_RANGE ≤ a.Length then
    some ⟨a.Storage, a.Offset + N, M⟩
  else none

end ArrayRef

/-- The method `SetVector::getArrayRef`: a view of the whole vector. -/
def SetVector.getArrayRef (s : SetVector) : ArrayRef :=
  ⟨s.vector_, 0, s.size⟩

/-- The two data members of `ConformanceChecker` that make up the ledger
bookkeeping: the shared ledger and the start of this conformance's slice. -/
structure ConformanceChecker where
  GlobalMissingWitnesses : SetVector
  LocalMissingWitnessesStartIndex : Nat
deriving DecidableEq, Repr

/-- The method `ConformanceChecker::getLocalMissingWitness`:
`GlobalMissingWitnesses.getArrayRef().slice(LocalMissingWitnessesStartIndex,
GlobalMissingWitnesses.size() - LocalMissingWitnessesStartIndex)`.
The subtraction is a `size_t` subtraction (the `unsigned` index is converted
to `size_t`).  The method is not `const`, so the checker is threaded through;
`none` is the failed assertion of `slice`. -/
def ConformanceChecker.getLocalMissingWitness (c : ConformanceChecker) :
    Option (ArrayRef × ConformanceChecker) :=
  let N := c.LocalMissingWitnessesStartIndex
  let M := (c.GlobalMissingWitnesses.size + SIZE_T_RANGE - N % SIZE_T_RANGE) % SIZE_T_RANGE
  match c.GlobalMissingWitnesses.getArrayRef.slice N M with
  | some view => some (view, c)
  | none => none

end Swift

namespace Swift

/-! ## Part 2: local rename (`lib/Refactoring/LocalRename.cpp`)

The AST classes the refactoring queries (`ValueDecl`, `DeclContext`,
`SourceFile`, the cursor info) are declared in headers that are not among the
sources.  Each is kept as a record of the answers to the queries that
`LocalRename.cpp` makes on it. -/

/-- The kinds of value declaration (`swift/AST/DeclNodes.def`, not among the
sources), so that the `isa<...>` tests of the code follow the class hierarchy:
`AccessorDecl` is a `FuncDecl`; `ConstructorDecl`, `DestructorDecl` and
`FuncDecl` are the `AbstractFunctionDecl`s; `ParamDecl` is a `VarDecl`. -/
inductive DeclKind where
  | Enum | Struct | Class | Protocol | BuiltinTuple | OpaqueType | TypeAlias
  | GenericTypeParam | AssociatedType | Module
  | Var | Param | Subscript
  | Constructor | Destructor | Func | Accessor
  | Macro | EnumElement
deriving DecidableEq, Repr

namespace DeclKind

/-- The test `isa<AbstractFunctionDecl>`. -/
def isAbstractFunctionDecl : DeclKind → Bool
  | Constructor | Destructor | Func | Accessor => true
  | _ => false

/-- The test `isa<AccessorDecl>`. -/
def isAccessorDecl : DeclKind → Bool
  | Accessor => true
  | _ => false

/-- The test `isa<DestructorDecl>`. -/
def isDestructorDecl : DeclKind → Bool
  | Destructor => true
  | _ => false

/-- The test `isa<ConstructorDecl>`. -/
def isConstructorDecl : DeclKind → Bool
  | Constructor => true
  | _ => false

/-- The test `isa<FuncDecl>`. -/
def isFuncDecl : DeclKind → Bool
  | Func | Accessor => true
  | _ => false

/-- The test `isa<ParamDecl>`. -/
def isParamDecl : DeclKind → Bool
  | Param => true
  | _ => false

/-- The test `isa<VarDecl>`. -/
def isVarDecl : DeclKind → Bool
  | Var | Param => true
  | _ => false

end DeclKind

/-- The enumeration `DeclContextKind`, with the thirteen cases that the switch
of `getRenameScope` lists. -/
inductive DeclContextKind where
  | AbstractClosureExpr | Initializer | TopLevelCodeDecl | SubscriptDecl
  | EnumElementDecl | AbstractFunctionDecl | SerializedLocal | MacroDecl
  | Package | Module | FileUnit | GenericTypeDecl | ExtensionDecl
deriving DecidableEq, Repr

/-- A declaration context with its chain of parents.  Only a package or a
module context is created without a parent (the constructor of `DeclContext`
asserts a non-null parent for every other kind), so a root carries only the
choice between the two.  `id` stands for the identity of the object. -/
inductive DeclContext where
  | root (isPackage : Bool) (id : Nat)
  | child (kind : DeclContextKind) (id : Nat) (parent : DeclContext)
deriving DecidableEq, Repr

namespace DeclContext

/-- The method `DeclContext::getContextKind`. -/
def getContextKind : DeclContext → DeclContextKind
  | root true _ => DeclContextKind.Package
  | root false _ => DeclContextKind.Module
  | child kind _ _ => kind

/-- The method `DeclContext::getParent`; `none` is the null pointer. -/
def getParent : DeclContext → Option DeclContext
  | root _ _ => none
  | child _ _ parent => some parent

/-- The method `DeclContext::isChildContextOf`, "true if this is a child of the
specified other decl context" (`lib/AST/DeclContext.cpp`, not among the
sources): `Other` is reached by walking the parents of `this`, one or more
steps up.  `Other` may be the null pointer. -/
def isChildContextOf : DeclContext → Option DeclContext → Bool
  | root _ _, _ => false
  | child _ _ parent, Other => Other == some parent || parent.isChildContextOf Other

end DeclContext

/-- A source location; the location is valid when its pointer is not null. -/
structure SourceLoc where
  Value : Nat
deriving DecidableEq, Repr

/-- The method `SourceLoc::isValid`. -/
def SourceLoc.isValid (L : SourceLoc) : Bool := L.Value != 0

/-- A source file: it is a declaration context (a file unit), and it may be a
macro expansion buffer fulfilling a macro role (kept as the role's number). -/
structure SourceFile where
  asDeclContext : DeclContext
  FulfilledMacroRole : Option Nat
deriving DecidableEq, Repr

/-- A declaration as the rename code sees it through a pointer: its address and
whether `getModuleContext()->isNonUserModule()` holds for it. -/
structure DeclRef where
  Addr : Nat
  ModuleIsNonUserModule : Bool
deriving DecidableEq, Repr

/-- A value declaration, as the answers to the queries of `LocalRename.cpp`. -/
structure ValueDecl where
  /-- The address of the declaration. -/
  Addr : Nat
  /-- The dynamic class, for `isa` and `dyn_cast`. -/
  Kind : DeclKind
  /-- The query `getModuleContext()->isNonUserModule()`. -/
  ModuleIsNonUserModule : Bool
  /-- The query `getSatisfiedProtocolRequirements()`. -/
  SatisfiedProtocolRequirements : List DeclRef
  /-- The successive results of `getOverriddenDecl()`, up to the null pointer. -/
  OverriddenDecls : List DeclRef
  /-- The query `getClangDecl()`; `none` is the null pointer. -/
  ClangDecl : Option Nat
  /-- The query `getName()`; `none` is the empty name, for which `hasName()` is false. -/
  Name : Option String
  /-- The query `getLoc()`. -/
  Loc : SourceLoc
  /-- The query `getModuleContext()->getSourceFileContainingLocation(getLoc())`. -/
  SourceFileContainingLoc : Option SourceFile
  /-- The query `getParameters()` of a constructor or function. -/
  Parameters : List Nat
  /-- The query `getBaseIdentifier()` of a function. -/
  BaseIdentifier : String
  /-- The answer of `index::isLocalSymbol`. -/
  isLocalSymbol : Bool
  /-- The query `getDeclContext()`. -/
  DeclCtx : DeclContext
deriving DecidableEq, Repr

/-- The method `ValueDecl::hasName`. -/
def ValueDecl.hasName (VD : ValueDecl) : Bool := VD.Name.isSome

/-- The known identifier `ASTContext::Id_callAsFunction`. -/
def Id_callAsFunction : String := "callAsFunction"

/-- The function `getRelatedSystemDecl`: the declaration itself, else the first
satisfied protocol requirement, else the first overridden declaration, that
lies in a non-user module; the result is the address, `none` the null
pointer. -/
def getRelatedSystemDecl (VD : ValueDecl) : Option Nat :=
  if VD.ModuleIsNonUserModule then some VD.Addr
  else
    match VD.SatisfiedProtocolRequirements.find? (fun Req => Req.ModuleIsNonUserModule) with
    | some Req => some Req.Addr
    | none =>
      match VD.OverriddenDecls.find? (fun Over => Over.ModuleIsNonUserModule) with
      | some Over => some Over.Addr
      | none => none

/-- The structure `RenameRefInfo`. -/
structure RenameRefInfo where
  SF : SourceFile
  Loc : SourceLoc
  IsArgLabel : Bool
deriving DecidableEq, Repr

/-- The enumeration `RefactorAvailableKind`, the seven cases that the switch of
`getRenameInfoForLocalRename` lists. -/
inductive RefactorAvailableKind where
  | Available
  | Unavailable_system_symbol
  | Unavailable_has_no_location
  | Unavailable_has_no_name
  | Unavailable_has_no_accessibility
  | Unavailable_decl_from_clang
  | Unavailable_decl_in_macro
deriving DecidableEq, Repr

/-- The two rename kinds of `RefactoringKind` that the code produces. -/
inductive RefactoringKind where
  | LocalRename
  | GlobalRename
deriving DecidableEq, Repr

/-- The structure `RefactorAvailabilityInfo`. -/
structure RefactorAvailabilityInfo where
  Kind : RefactoringKind
  AvailableKind : RefactorAvailableKind
deriving DecidableEq, Repr

/-- The part of a `ResolvedLoc` that the code reads. -/
structure ResolvedLoc where
  LabelRanges : List (Nat × Nat)
deriving DecidableEq, Repr

/-- The name matcher, `NameMatcher(SF).resolve(Loc)`, taken as a parameter. -/
abbrev NameMatcher := SourceFile → SourceLoc → ResolvedLoc

/-- The lambda `isInMacroExpansionBuffer` of `renameAvailabilityInfo`. -/
def isInMacroExpansionBuffer (VD : ValueDecl) : Bool :=
  match VD.SourceFileContainingLoc with
  | none => false
  | some file => file.FulfilledMacroRole != none

/-- The value of `AvailKind` in `renameAvailabilityInfo` after the two
classification blocks (source lines 49 to 74). -/
def renameAvailabilityInfo.AvailKind (VD : ValueDecl) : RefactorAvailableKind :=
  let AvailKind :=
    if (getRelatedSystemDecl VD).isSome then RefactorAvailableKind.Unavailable_system_symbol
    else if VD.ClangDecl.isSome then RefactorAvailableKind.Unavailable_decl_from_clang
    else if !VD.hasName then RefactorAvailableKind.Unavailable_has_no_name
    else RefactorAvailableKind.Available
  if AvailKind == RefactorAvailableKind.Available then
    if !VD.Loc.isValid then RefactorAvailableKind.Unavailable_has_no_location
    else if isInMacroExpansionBuffer VD then RefactorAvailableKind.Unavailable_decl_in_macro
    else AvailKind
  else AvailKind

/-- The test made twice in `renameAvailabilityInfo`:
`if (RefInfo && !RefInfo->IsArgLabel) { ...; if (Resolved.LabelRanges.empty()) return None; }`
answers whether that `return` is taken. -/
def renameAvailabilityInfo.noLabelRanges (Matcher : NameMatcher)
    (RefInfo : Option RenameRefInfo) : Bool :=
  match RefInfo with
  | some R => !R.IsArgLabel && (Matcher R.SF R.Loc).LabelRanges.isEmpty
  | none => false

/-- The function `renameAvailabilityInfo`; `none` is `llvm::None`.  Each
`return llvm::None` of the source is one branch, in source order; `tail` is
the code after the `isa<AbstractFunctionDecl>` block (source lines 116 to
124). -/
def renameAvailabilityInfo (Matcher : NameMatcher) (VD : ValueDecl)
    (RefInfo : Option RenameRefInfo) : Option RefactorAvailabilityInfo :=
  let AvailKind := renameAvailabilityInfo.AvailKind VD
  let tail : Option RefactorAvailabilityInfo :=
    if VD.Kind.isParamDecl then some ⟨RefactoringKind.LocalRename, AvailKind⟩
    else if VD.isLocalSymbol then some ⟨RefactoringKind.LocalRename, AvailKind⟩
    else some ⟨RefactoringKind.GlobalRename, AvailKind⟩
  if VD.Kind.isAbstractFunctionDecl then
    if VD.Kind.isAccessorDecl then none
    else if VD.Kind.isDestructorDecl then none
    else if VD.Kind.isConstructorDecl && VD.Parameters.length == 0 then none
    else if VD.Kind.isConstructorDecl &&
        renameAvailabilityInfo.noLabelRanges Matcher RefInfo then none
    else if VD.Kind.isFuncDecl && VD.BaseIdentifier == Id_callAsFunction &&
        VD.Parameters.length == 0 then none
    else if VD.Kind.isFuncDecl && VD.BaseIdentifier == Id_callAsFunction &&
        renameAvailabilityInfo.noLabelRanges Matcher RefInfo then none
    else tail
  else tail

/-- The structure `RenameInfo`. -/
structure RenameInfo where
  VD : ValueDecl
  Availability : RefactorAvailabilityInfo
deriving DecidableEq, Repr

/-- A `ResolvedValueRefCursorInfo`, as the answers to the queries of
`getRenameInfo`. -/
structure ResolvedValueRefCursorInfo where
  /-- The query `getSourceFile()`. -/
  SF : SourceFile
  /-- The query `getLoc()`. -/
  Loc : SourceLoc
  /-- The query `typeOrValue()`; `none` is the null pointer. -/
  typeOrValue : Option ValueDecl
  /-- The query `isRef()`. -/
  isRef : Bool
  /-- The query `isKeywordArgument()`. -/
  isKeywordArgument : Bool
  /-- The query `getShorthandShadowedDecls()`. -/
  ShorthandShadowedDecls : List ValueDecl
deriving DecidableEq, Repr

/-- A resolved cursor: only a value reference carries data the code reads. -/
inductive ResolvedCursorInfo where
  | Invalid
  | ValueRef (info : ResolvedValueRefCursorInfo)
  | ModuleRef
  | ExprStart
  | StmtStart
deriving DecidableEq, Repr

/-- The two queries on a `VarDecl` that lead to another declaration, taken as
parameters. -/
structure VarDeclQueries where
  getCanonicalVarDecl : ValueDecl → ValueDecl
  getOriginalWrappedProperty : ValueDecl → Option ValueDecl

/-- The value of `VD` in `getRenameInfo` when `renameAvailabilityInfo` is
called (source lines 136 to 164). -/
def getRenameInfo.VD (Q : VarDeclQueries) (valueCursor : ResolvedValueRefCursorInfo)
    (VD : ValueDecl) : ValueDecl :=
  let VD1 :=
    if VD.Kind.isVarDecl then
      match Q.getOriginalWrappedProperty VD with
      | some Wrapped => Wrapped
      | none => Q.getCanonicalVarDecl VD
    else VD
  match valueCursor.ShorthandShadowedDecls.getLast? with
  | some outermost => outermost
  | none => VD1

/-- The value of `refInfo` in `getRenameInfo` when `renameAvailabilityInfo` is
called (source lines 157 to 164). -/
def getRenameInfo.refInfo (valueCursor : ResolvedValueRefCursorInfo) : Option RenameRefInfo :=
  if !valueCursor.ShorthandShadowedDecls.isEmpty then none
  else if valueCursor.isRef then
    some ⟨valueCursor.SF, valueCursor.Loc, valueCursor.isKeywordArgument⟩
  else none

/-- The function `swift::ide::getRenameInfo`. -/
def getRenameInfo (Q : VarDeclQueries) (Matcher : NameMatcher)
    (cursorInfo : ResolvedCursorInfo) : Option RenameInfo :=
  match cursorInfo with
  | ResolvedCursorInfo.ValueRef valueCursor =>
    match valueCursor.typeOrValue with
    | none => none
    | some VD0 =>
      let VD := getRenameInfo.VD Q valueCursor VD0
      let refInfo := getRenameInfo.refInfo valueCursor
      match renameAvailabilityInfo Matcher VD refInfo with
      | none => none
      | some info => some ⟨VD, info⟩
  | _ => none

/-- The function `getRenameScope`; `none` is the null pointer. -/
def getRenameScope (VD : ValueDecl) : Option DeclContext :=
  let Scope := VD.DeclCtx
  match Scope.getContextKind with
  | DeclContextKind.GenericTypeDecl
  | DeclContextKind.ExtensionDecl
  | DeclContextKind.TopLevelCodeDecl
  | DeclContextKind.SubscriptDecl
  | DeclContextKind.EnumElementDecl
  | DeclContextKind.AbstractFunctionDecl => Scope.getParent
  | DeclContextKind.AbstractClosureExpr
  | DeclContextKind.Initializer
  | DeclContextKind.SerializedLocal
  | DeclContextKind.Package
  | DeclContextKind.Module
  | DeclContextKind.FileUnit
  | DeclContextKind.MacroDecl => some Scope

/-- The diagnostics that `getRenameInfoForLocalRename` emits. -/
inductive DiagID where
  | unresolved_location
  | decl_is_system_symbol
  | value_decl_no_loc
  | decl_has_no_name
  | decl_no_accessibility
  | decl_from_clang
  | decl_in_macro
deriving DecidableEq, Repr

/-- One emitted diagnostic: where, which, and the declaration-name arguments. -/
structure Diagnostic where
  Loc : SourceLoc
  ID : DiagID
  Args : List (Option String)
deriving DecidableEq, Repr

/-- The diagnostic engine, as the list of diagnostics emitted so far. -/
abbrev DiagnosticEngine := List Diagnostic

/-- The method `DiagnosticEngine::diagnose`. -/
def DiagnosticEngine.diagnose (diags : DiagnosticEngine) (Loc : SourceLoc) (ID : DiagID)
    (Args : List (Option String)) : DiagnosticEngine :=
  diags ++ [⟨Loc, ID, Args⟩]

/-- The function `getRenameInfoForLocalRename`.  The cursor-info request is
taken as the parameter `CursorInfoRequest`; the engine is threaded through. -/
def getRenameInfoForLocalRename (Q : VarDeclQueries) (Matcher : NameMatcher)
    (CursorInfoRequest : SourceFile → SourceLoc → ResolvedCursorInfo)
    (sourceFile : SourceFile) (startLoc : SourceLoc) (diags : DiagnosticEngine) :
    Option RenameInfo × DiagnosticEngine :=
  let cursorInfo := CursorInfoRequest sourceFile startLoc
  match getRenameInfo Q Matcher cursorInfo with
  | none => (none, diags.diagnose startLoc DiagID.unresolved_location [])
  | some info =>
    match info.Availability.AvailableKind with
    | RefactorAvailableKind.Available => (some info, diags)
    | RefactorAvailableKind.Unavailable_system_symbol =>
      (none, diags.diagnose startLoc DiagID.decl_is_system_symbol [info.VD.Name])
    | RefactorAvailableKind.Unavailable_has_no_location =>
      (none, diags.diagnose startLoc DiagID.value_decl_no_loc [info.VD.Name])
    | RefactorAvailableKind.Unavailable_has_no_name =>
      (none, diags.diagnose startLoc DiagID.decl_has_no_name [])
    | RefactorAvailableKind.Unavailable_has_no_accessibility =>
      (none, diags.diagnose startLoc DiagID.decl_no_accessibility [])
    | RefactorAvailableKind.Unavailable_decl_from_clang =>
      (none, diags.diagnose startLoc DiagID.decl_from_clang [])
    | RefactorAvailableKind.Unavailable_decl_in_macro =>
      (none, diags.diagnose startLoc DiagID.decl_in_macro [])

/-- The value of `RenameScope` in `swift::ide::localRenameLocs` when
`indexDeclContext` is called (source lines 352 to 365).  `SF` may be the null
pointer; a null `DeclarationScope` is not dereferenced further. -/
def localRenameLocs.RenameScope (SF : Option SourceFile) (renameInfo : RenameInfo) :
    Option DeclContext :=
  let RenameScope := SF.map SourceFile.asDeclContext
  if RenameScope.isNone then
    match getRenameScope renameInfo.VD with
    | some DeclarationScope =>
      if DeclarationScope.isChildContextOf (SF.map SourceFile.asDeclContext) then
        some DeclarationScope
      else RenameScope
    | none => RenameScope
  else RenameScope

/-- The function `swift::ide::localRenameLocs`: the indexer, run over
`RenameScope` with a collector for the declaration, is the parameter
`indexDeclContext`. -/
def localRenameLocs {RenameLocs : Type} (indexDeclContext : Option DeclContext → ValueDecl → RenameLocs)
    (SF : Option SourceFile) (renameInfo : RenameInfo) : RenameLocs :=
  indexDeclContext (localRenameLocs.RenameScope SF renameInfo) renameInfo.VD

/-- The diagnostic that corresponds to an unavailable kind, by name:
system symbol, no location, no name, no accessibility, from clang, in macro.
The kind `Available` has no diagnostic. -/
def RefactorAvailableKind.matchingDiagnostic : RefactorAvailableKind → Option DiagID
  | Available => none
  | Unavailable_system_symbol => some DiagID.decl_is_system_symbol
  | Unavailable_has_no_location => some DiagID.value_decl_no_loc
  | Unavailable_has_no_name => some DiagID.decl_has_no_name
  | Unavailable_has_no_accessibility => some DiagID.decl_no_accessibility
  | Unavailable_decl_from_clang => some DiagID.decl_from_clang
  | Unavailable_decl_in_macro => some DiagID.decl_in_macro

/-! ### Concrete declarations, used to evaluate the definitions -/

namespace Example

/-- A module context. -/
def moduleCtx : DeclContext := DeclContext.root false 1

/-- A source file of the module, as a context. -/
def fileCtx : DeclContext := DeclContext.child DeclContextKind.FileUnit 2 moduleCtx

/-- A function declared at the top level of the file. -/
def funcCtx : DeclContext := DeclContext.child DeclContextKind.AbstractFunctionDecl 3 fileCtx

/-- A closure in the body of the function. -/
def closureCtx : DeclContext := DeclContext.child DeclContextKind.AbstractClosureExpr 4 funcCtx

/-- The source file. -/
def file : SourceFile := ⟨fileCtx, none⟩

/-- A variable `x` declared in the closure. -/
def closureVar : ValueDecl :=
  { Addr := 100, Kind := DeclKind.Var, ModuleIsNonUserModule := false,
    SatisfiedProtocolRequirements := [], OverriddenDecls := [], ClangDecl := none,
    Name := some "x", Loc := ⟨10⟩, SourceFileContainingLoc := some file,
    Parameters := [], BaseIdentifier := "x", isLocalSymbol := true, DeclCtx := closureCtx }

/-- A parameter `p` of a function of a non-user module. -/
def systemParam : ValueDecl :=
  { Addr := 101, Kind := DeclKind.Param, ModuleIsNonUserModule := true,
    SatisfiedProtocolRequirements := [], OverriddenDecls := [], ClangDecl := none,
    Name := some "p", Loc := ⟨11⟩, SourceFileContainingLoc := none,
    Parameters := [], BaseIdentifier := "p", isLocalSymbol := false, DeclCtx := funcCtx }

/-- A name matcher that resolves no label ranges. -/
def matcher : NameMatcher := fun _ _ => ⟨[]⟩

/-- The queries on a `VarDecl`, for declarations that are their own canonical
declaration and wrap no property. -/
def queries : VarDeclQueries := ⟨fun VD => VD, fun _ => none⟩

/-- A cursor on a reference to `closureVar`. -/
def cursorOnClosureVar : ResolvedCursorInfo :=
  ResolvedCursorInfo.ValueRef ⟨file, ⟨20⟩, some closureVar, true, false, []⟩

end Example

end Swift

/-! ## Theorems about the ledger -/

namespace Swift

theorem isEqual_iff (a b : MissingWitness) :
    DenseMapInfo.isEqual a b = true ↔ a.requirement = b.requirement := by
  simp [DenseMapInfo.isEqual]

theorem getHashValue_eq_of_isEqual (ptrHash : Nat → Nat) (a b : MissingWitness)
    (h : DenseMapInfo.isEqual a b = true) :
    DenseMapInfo.getHashValue ptrHash a = DenseMapInfo.getHashValue ptrHash b := by
  rw [isEqual_iff] at h
  simp [DenseMapInfo.getHashValue, h]

theorem DenseSet.contains_iff_mem_keys (s : DenseSet) (x : MissingWitness) :
    s.contains x = true ↔ x.requirement ∈ s.keys.map MissingWitness.requirement := by
  simp only [DenseSet.contains, List.any_eq_true, isEqual_iff, List.mem_map]

theorem SetVector.contains_iff_of_WF {s : SetVector} (hs : s.WF) (x : MissingWitness) :
    s.set_.contains x = true ↔ x.requirement ∈ s.requirements := by
  obtain ⟨h1, h2, _⟩ := hs
  rw [DenseSet.contains_iff_mem_keys]
  simp only [SetVector.requirements, List.mem_map]
  constructor
  · rintro ⟨k, hk, hkx⟩
    have := h1 k hk
    simp only [List.any_eq_true, isEqual_iff] at this
    obtain ⟨v, hv, hvk⟩ := this
    exact ⟨v, hv, hvk.trans hkx⟩
  · rintro ⟨v, hv, hvx⟩
    have := h2 v hv
    rw [DenseSet.contains_iff_mem_keys] at this
    simp only [List.mem_map] at this
    obtain ⟨k, hk, hkv⟩ := this
    exact ⟨k, hk, hkv.trans hvx⟩

theorem SetVector.WF_empty : SetVector.empty.WF := by decide

theorem SetVector.insert_of_mem {s : SetVector} (hs : s.WF) (x : MissingWitness)
    (hx : x.requirement ∈ s.requirements) : s.insert x = (s, false) := by
  have h := (SetVector.contains_iff_of_WF hs x).2 hx
  simp [SetVector.insert, DenseSet.insert, h]

theorem SetVector.insert_of_not_mem {s : SetVector} (hs : s.WF) (x : MissingWitness)
    (hx : x.requirement ∉ s.requirements) :
    s.insert x = (⟨⟨x :: s.set_.keys⟩, s.vector_ ++ [x]⟩, true) := by
  have h : s.set_.contains x = false := by
    cases hc : s.set_.contains x
    · rfl
    · exact absurd ((SetVector.contains_iff_of_WF hs x).1 hc) hx
  simp [SetVector.insert, DenseSet.insert, h]

theorem SetVector.requirements_insert {s : SetVector} (hs : s.WF) (x : MissingWitness) :
    (s.insert x).1.requirements =
      if x.requirement ∈ s.requirements then s.requirements
      else s.requirements ++ [x.requirement] := by
  by_cases hx : x.requirement ∈ s.requirements
  · rw [SetVector.insert_of_mem hs x hx, if_pos hx]
  · rw [SetVector.insert_of_not_mem hs x hx, if_neg hx]
    simp [SetVector.requirements]

theorem SetVector.WF_insert {s : SetVector} (hs : s.WF) (x : MissingWitness) :
    (s.insert x).1.WF := by
  by_cases hx : x.requirement ∈ s.requirements
  · rw [SetVector.insert_of_mem hs x hx]; exact hs
  · rw [SetVector.insert_of_not_mem hs x hx]
    obtain ⟨h1, h2, h3⟩ := hs
    refine ⟨?_, ?_, ?_⟩
    · intro k hk
      simp only [List.mem_cons] at hk
      simp only [List.any_append, Bool.or_eq_true, List.any_eq_true, isEqual_iff]
      rcases hk with rfl | hk
      · right; exact ⟨k, List.mem_singleton_self _, rfl⟩
      · left
        have := h1 k hk
        simpa only [List.any_eq_true, isEqual_iff] using this
    · intro v hv
      simp only [List.mem_append, List.mem_singleton] at hv
      simp only [DenseSet.contains, List.any_cons, Bool.or_eq_true, isEqual_iff]
      rcases hv with hv | rfl
      · right; exact h2 v hv
      · left; rfl
    · simp only [SetVector.requirements, List.map_append, List.map_cons, List.map_nil]
      rw [List.nodup_append]
      refine ⟨h3, List.nodup_singleton _, ?_⟩
      intro r hr hr2
      rw [List.mem_singleton] at hr2
      subst hr2
      exact hx hr

theorem SetVector.WF_insertAll (es : List MissingWitness) :
    ∀ {s : SetVector}, s.WF → (s.insertAll es).WF := by
  induction es with
  | nil => intro s hs; exact hs
  | cons e es ih => intro s hs; exact ih (SetVector.WF_insert hs e)

theorem SetVector.prefix_insert (s : SetVector) (x : MissingWitness) :
    s.vector_ <+: (s.insert x).1.vector_ := by
  simp only [SetVector.insert]
  split
  · exact List.prefix_append _ _
  · exact List.prefix_refl _

theorem SetVector.prefix_insertAll (es : List MissingWitness) :
    ∀ s : SetVector, s.vector_ <+: (s.insertAll es).vector_ := by
  induction es with
  | nil => intro s; exact List.prefix_refl _
  | cons e es ih => intro s; exact (SetVector.prefix_insert s e).trans (ih _)

theorem indexOf_order_of_dup (A B : List Nat) (x : Nat) (hx : x ∈ A) (r1 r2 : Nat)
    (h2 : r2 ∈ A ++ x :: B)
    (h : (A ++ x :: B).indexOf r1 < (A ++ x :: B).indexOf r2) :
    r2 ∈ A ++ B ∧ (A ++ B).indexOf r1 < (A ++ B).indexOf r2 := by
  by_cases h1A : r1 ∈ A <;> by_cases h2A : r2 ∈ A
  · refine ⟨List.mem_append_left _ h2A, ?_⟩
    rw [List.indexOf_append_of_mem h1A, List.indexOf_append_of_mem h2A] at h ⊢
    exact h
  · have hne : x ≠ r2 := fun e => h2A (e ▸ hx)
    have h2B : r2 ∈ B := by
      simp only [List.mem_append, List.mem_cons] at h2
      rcases h2 with h2 | h2 | h2
      · exact absurd h2 h2A
      · exact absurd h2.symm hne
      · exact h2
    refine ⟨List.mem_append_right _ h2B, ?_⟩
    rw [List.indexOf_append_of_mem h1A, List.indexOf_append_of_not_mem h2A]
    have := List.indexOf_lt_length.2 h1A
    omega
  · rw [List.indexOf_append_of_not_mem h1A, List.indexOf_append_of_mem h2A] at h
    have := List.indexOf_lt_length.2 h2A
    omega
  · have hne1 : x ≠ r1 := fun e => h1A (e ▸ hx)
    have hne2 : x ≠ r2 := fun e => h2A (e ▸ hx)
    have h2B : r2 ∈ B := by
      simp only [List.mem_append, List.mem_cons] at h2
      rcases h2 with h2 | h2 | h2
      · exact absurd h2 h2A
      · exact absurd h2.symm hne2
      · exact h2
    refine ⟨List.mem_append_right _ h2B, ?_⟩
    rw [List.indexOf_append_of_not_mem h1A, List.indexOf_append_of_not_mem h2A,
      List.indexOf_cons_ne _ hne1, List.indexOf_cons_ne _ hne2] at h
    rw [List.indexOf_append_of_not_mem h1A, List.indexOf_append_of_not_mem h2A]
    omega

theorem SetVector.firstSeen_order (es : List MissingWitness) :
    ∀ s : SetVector, s.WF → ∀ r1 r2 : Nat,
      r2 ∈ s.requirements ++ es.map MissingWitness.requirement →
      (s.requirements ++ es.map MissingWitness.requirement).indexOf r1 <
        (s.requirements ++ es.map MissingWitness.requirement).indexOf r2 →
      r2 ∈ (s.insertAll es).requirements ∧
        (s.insertAll es).requirements.indexOf r1 < (s.insertAll es).requirements.indexOf r2 := by
  induction es with
  | nil =>
    intro s _ r1 r2 h2 h
    simpa [SetVector.insertAll] using And.intro h2 h
  | cons e es ih =>
    intro s hs r1 r2 h2 h
    have hstep : s.insertAll (e :: es) = (s.insert e).1.insertAll es := rfl
    rw [hstep]
    apply ih _ (SetVector.WF_insert hs e)
    all_goals rw [SetVector.requirements_insert hs e]
    all_goals by_cases he : e.requirement ∈ s.requirements
    · rw [if_pos he]
      exact (indexOf_order_of_dup _ _ _ he r1 r2 (by simpa using h2) (by simpa using h)).1
    · rw [if_neg he]
      simpa using h2
    · rw [if_pos he]
      exact (indexOf_order_of_dup _ _ _ he r1 r2 (by simpa using h2) (by simpa using h)).2
    · rw [if_neg he]
      simpa using h

theorem SIZE_T_RANGE_eq : SIZE_T_RANGE = 18446744073709551616 := by
  norm_num [SIZE_T_RANGE]

theorem UNSIGNED_RANGE_eq : UNSIGNED_RANGE = 4294967296 := by
  norm_num [UNSIGNED_RANGE]

/-! ### The claims about the ledger -/

/-- C1 (ledger deduplication): two `MissingWitness` entries are the same ledger
key exactly when their requirements are equal, whatever their context data;
inserting an entry whose requirement is already in a ledger leaves the ledger
unchanged (and reports that nothing was inserted); and after any sequence of
insertions, into any ledger or into a fresh one, every requirement has at most
one entry. -/
theorem missingWitness_ledger_dedup (s : SetVector) (hs : s.WF) (a b : MissingWitness)
    (es : List MissingWitness) :
    (DenseMapInfo.isEqual a b = true ↔ a.requirement = b.requirement) ∧
    (a.requirement ∈ s.requirements → s.insert a = (s, false)) ∧
    (∀ r : Nat, (s.insertAll es).requirements.count r ≤ 1) ∧
    (∀ r : Nat, (SetVector.empty.insertAll es).requirements.count r ≤ 1) := by
  refine ⟨isEqual_iff a b, SetVector.insert_of_mem hs a, ?_, ?_⟩
  · exact List.nodup_iff_count_le_one.1 (SetVector.WF_insertAll es hs).2.2
  · exact List.nodup_iff_count_le_one.1 (SetVector.WF_insertAll es SetVector.WF_empty).2.2

/-- C1, at a concrete ledger: requirement 1 is present with context `[]`, and
inserting it again with context `[7]` changes nothing. -/
theorem missingWitness_ledger_dedup_witness :
    (SetVector.empty.insertAll [⟨1, []⟩, ⟨2, [5]⟩]).WF ∧
    (1 ∈ (SetVector.empty.insertAll [⟨1, []⟩, ⟨2, [5]⟩]).requirements) ∧
    (SetVector.empty.insertAll [⟨1, []⟩, ⟨2, [5]⟩]).insert ⟨1, [7]⟩ =
      (SetVector.empty.insertAll [⟨1, []⟩, ⟨2, [5]⟩], false) :=
  ⟨by decide, by decide,
    (missingWitness_ledger_dedup (SetVector.empty.insertAll [⟨1, []⟩, ⟨2, [5]⟩]) (by decide)
      ⟨1, [7]⟩ ⟨1, []⟩ []).2.1 (by decide)⟩

/-- C2 (the local slice): when the start index is at most the ledger's size,
`getLocalMissingWitness` returns a view whose elements are exactly the ledger
entries at positions start, start+1, ..., size-1 in ledger order; its length is
size - start; it is empty when start = size; and the checker, with its ledger,
is returned unchanged. -/
theorem getLocalMissingWitness_slice (c : ConformanceChecker)
    (hsize : c.GlobalMissingWitnesses.size < SIZE_T_RANGE)
    (hstart : c.LocalMissingWitnessesStartIndex ≤ c.GlobalMissingWitnesses.size) :
    ∃ view : ArrayRef,
      c.getLocalMissingWitness = some (view, c) ∧
      view.toList = c.GlobalMissingWitnesses.vector_.drop c.LocalMissingWitnessesStartIndex ∧
      view.toList.length =
        c.GlobalMissingWitnesses.size - c.LocalMissingWitnessesStartIndex ∧
      view.Length = c.GlobalMissingWitnesses.size - c.LocalMissingWitnessesStartIndex ∧
      (∀ i : Nat, i < c.GlobalMissingWitnesses.size - c.LocalMissingWitnessesStartIndex →
        view.toList[i]? =
          c.GlobalMissingWitnesses.vector_[c.LocalMissingWitnessesStartIndex + i]?) ∧
      (c.LocalMissingWitnessesStartIndex = c.GlobalMissingWitnesses.size →
        view.toList = []) := by
  rw [SIZE_T_RANGE_eq] at hsize
  have hN : c.LocalMissingWitnessesStartIndex % 18446744073709551616 =
      c.LocalMissingWitnessesStartIndex := Nat.mod_eq_of_lt (by omega)
  have hM : (c.GlobalMissingWitnesses.size + 18446744073709551616 -
      c.LocalMissingWitnessesStartIndex) % 18446744073709551616 =
      c.GlobalMissingWitnesses.size - c.LocalMissingWitnessesStartIndex := by omega
  have hsum : (c.LocalMissingWitnessesStartIndex +
      (c.GlobalMissingWitnesses.size - c.LocalMissingWitnessesStartIndex)) %
      18446744073709551616 ≤ c.GlobalMissingWitnesses.size := by omega
  have hlist : (List.drop c.LocalMissingWitnessesStartIndex c.GlobalMissingWitnesses.vector_).take
      (c.GlobalMissingWitnesses.size - c.LocalMissingWitnessesStartIndex) =
      List.drop c.LocalMissingWitnessesStartIndex c.GlobalMissingWitnesses.vector_ := by
    apply List.take_of_length_le
    simp [SetVector.size]
  refine ⟨⟨c.GlobalMissingWitnesses.vector_, c.LocalMissingWitnessesStartIndex,
    c.GlobalMissingWitnesses.size - c.LocalMissingWitnessesStartIndex⟩, ?_, ?_, ?_, rfl, ?_, ?_⟩
  · simp only [ConformanceChecker.getLocalMissingWitness, SIZE_T_RANGE_eq, hN, hM,
      ArrayRef.slice, SetVector.getArrayRef, if_pos hsum, Nat.zero_add]
  · simpa only [ArrayRef.toList] using hlist
  · simp only [ArrayRef.toList]
    rw [hlist, List.length_drop]
    rfl
  · intro i _
    simp only [ArrayRef.toList, hlist, List.getElem?_drop]
  · intro h
    simp only [ArrayRef.toList, hlist]
    apply List.drop_of_length_le
    rw [h]; simp [SetVector.size]

/-- C2, at a concrete checker: a ledger of three entries with start index 1
yields the last two entries. -/
theorem getLocalMissingWitness_slice_witness :
    ∃ view : ArrayRef,
      ConformanceChecker.getLocalMissingWitness
          ⟨SetVector.empty.insertAll [⟨1, []⟩, ⟨2, [5]⟩, ⟨3, []⟩], 1⟩ =
        some (view, ⟨SetVector.empty.insertAll [⟨1, []⟩, ⟨2, [5]⟩, ⟨3, []⟩], 1⟩) ∧
      view.toList = [⟨2, [5]⟩, ⟨3, []⟩] := by
  obtain ⟨view, h1, h2, _⟩ := getLocalMissingWitness_slice
    ⟨SetVector.empty.insertAll [⟨1, []⟩, ⟨2, [5]⟩, ⟨3, []⟩], 1⟩
    (by rw [SIZE_T_RANGE_eq]; decide) (by decide)
  exact ⟨view, h1, h2.trans (by decide)⟩

/-- C3 (append-only, first-seen order): an insertion keeps the old contents as
a prefix of the new contents; when the entry's requirement was absent the
ledger gains exactly that entry, placed last; and for any insertion sequence
`es` into a ledger `s`, if requirement `r1` first occurs before `r2` first
occurs (in the ledger followed by the sequence), then both are in the final
ledger and the index of `r1` is smaller than the index of `r2`; the last part
states the same for a fresh ledger, where the order is that of the first
insertions in `es`. -/
theorem missingWitness_ledger_first_seen_order (s : SetVector) (hs : s.WF)
    (x : MissingWitness) (es : List MissingWitness) (r1 r2 : Nat) :
    s.vector_ <+: (s.insert x).1.vector_ ∧
    s.vector_ <+: (s.insertAll es).vector_ ∧
    (x.requirement ∉ s.requirements →
      (s.insert x).1.vector_ = s.vector_ ++ [x] ∧
      (s.insert x).1.size = s.size + 1) ∧
    (r2 ∈ s.requirements ++ es.map MissingWitness.requirement →
      (s.requirements ++ es.map MissingWitness.requirement).indexOf r1 <
        (s.requirements ++ es.map MissingWitness.requirement).indexOf r2 →
      (s.insertAll es).requirements.indexOf r1 < (s.insertAll es).requirements.indexOf r2 ∧
      (s.insertAll es).requirements.indexOf r2 < (s.insertAll es).size) ∧
    (r2 ∈ es.map MissingWitness.requirement →
      (es.map MissingWitness.requirement).indexOf r1 <
        (es.map MissingWitness.requirement).indexOf r2 →
      (SetVector.empty.insertAll es).requirements.indexOf r1 <
        (SetVector.empty.insertAll es).requirements.indexOf r2 ∧
      (SetVector.empty.insertAll es).requirements.indexOf r2 <
        (SetVector.empty.insertAll es).size) := by
  have order : ∀ t : SetVector, t.WF →
      r2 ∈ t.requirements ++ es.map MissingWitness.requirement →
      (t.requirements ++ es.map MissingWitness.requirement).indexOf r1 <
        (t.requirements ++ es.map MissingWitness.requirement).indexOf r2 →
      (t.insertAll es).requirements.indexOf r1 < (t.insertAll es).requirements.indexOf r2 ∧
      (t.insertAll es).requirements.indexOf r2 < (t.insertAll es).size := by
    intro t ht h2 h
    obtain ⟨hm, hlt⟩ := SetVector.firstSeen_order es t ht r1 r2 h2 h
    refine ⟨hlt, ?_⟩
    have := List.indexOf_lt_length.2 hm
    simpa [SetVector.size, SetVector.requirements] using this
  refine ⟨SetVector.prefix_insert s x, SetVector.prefix_insertAll es s, ?_, order s hs, ?_⟩
  · intro hx
    rw [SetVector.insert_of_not_mem hs x hx]
    simp [SetVector.size]
  · intro h2 h
    exact order SetVector.empty SetVector.WF_empty (by simpa [SetVector.requirements,
      SetVector.empty] using h2) (by simpa [SetVector.requirements, SetVector.empty] using h)

/-- C3, at a concrete insertion sequence into a fresh ledger: requirement 4 is
first inserted before requirement 2 and both are re-inserted later; 4 keeps
index 0 and 2 keeps index 1. -/
theorem missingWitness_ledger_first_seen_order_witness :
    SetVector.empty.WF ∧
    (SetVector.empty.insertAll
        [⟨4, []⟩, ⟨2, [5]⟩, ⟨4, [1]⟩, ⟨3, []⟩, ⟨2, []⟩]).requirements.indexOf 4 <
      (SetVector.empty.insertAll
        [⟨4, []⟩, ⟨2, [5]⟩, ⟨4, [1]⟩, ⟨3, []⟩, ⟨2, []⟩]).requirements.indexOf 2 :=
  ⟨by decide,
    ((missingWitness_ledger_first_seen_order SetVector.empty (by decide) ⟨0, []⟩
      [⟨4, []⟩, ⟨2, [5]⟩, ⟨4, [1]⟩, ⟨3, []⟩, ⟨2, []⟩] 4 2).2.2.2.2 (by decide) (by decide)).1⟩

/-- C4 as stated fails: with an empty ledger and start index 1 (greater than
the size 0) the assertion of `slice` holds and a view is returned. -/
theorem getLocalMissingWitness_assertion_counterexample :
    SetVector.empty.size < 1 ∧
    ConformanceChecker.getLocalMissingWitness ⟨SetVector.empty, 1⟩ =
      some (⟨[], 1, 18446744073709551615⟩, ⟨SetVector.empty, 1⟩) := by
  decide

/-- C4, amended: for every start index (an `unsigned` value) greater than the
ledger's size, the `size_t` sum start + length wraps around to exactly the
size, so the assertion of `slice` holds: `getLocalMissingWitness` does not
fail, and returns a view of offset start and length 2^64 - (start - size). -/
theorem getLocalMissingWitness_assertion_passes (c : ConformanceChecker)
    (hsize : c.GlobalMissingWitnesses.size < SIZE_T_RANGE)
    (hunsigned : c.LocalMissingWitnessesStartIndex < UNSIGNED_RANGE)
    (hgt : c.GlobalMissingWitnesses.size < c.LocalMissingWitnessesStartIndex) :
    (c.LocalMissingWitnessesStartIndex +
        (SIZE_T_RANGE - (c.LocalMissingWitnessesStartIndex - c.GlobalMissingWitnesses.size))) %
      SIZE_T_RANGE = c.GlobalMissingWitnesses.size ∧
    c.getLocalMissingWitness =
      some (⟨c.GlobalMissingWitnesses.vector_, c.LocalMissingWitnessesStartIndex,
        SIZE_T_RANGE - (c.LocalMissingWitnessesStartIndex - c.GlobalMissingWitnesses.size)⟩, c) := by
  rw [SIZE_T_RANGE_eq] at hsize ⊢
  rw [UNSIGNED_RANGE_eq] at hunsigned
  have hN : c.LocalMissingWitnessesStartIndex % 18446744073709551616 =
      c.LocalMissingWitnessesStartIndex := Nat.mod_eq_of_lt (by omega)
  have hM : (c.GlobalMissingWitnesses.size + 18446744073709551616 -
      c.LocalMissingWitnessesStartIndex) % 18446744073709551616 =
      18446744073709551616 -
        (c.LocalMissingWitnessesStartIndex - c.GlobalMissingWitnesses.size) := by omega
  have hsum : (c.LocalMissingWitnessesStartIndex + (18446744073709551616 -
      (c.LocalMissingWitnessesStartIndex - c.GlobalMissingWitnesses.size))) %
      18446744073709551616 = c.GlobalMissingWitnesses.size := by omega
  refine ⟨hsum, ?_⟩
  simp only [ConformanceChecker.getLocalMissingWitness, SIZE_T_RANGE_eq, hN, hM,
    ArrayRef.slice, SetVector.getArrayRef, hsum, le_refl, if_true, Nat.zero_add]

/-- C4 amended, at a concrete checker: two entries, start index 5. -/
theorem getLocalMissingWitness_assertion_passes_witness :
    (SetVector.empty.insertAll [⟨1, []⟩, ⟨2, [5]⟩]).size < 5 ∧
    (ConformanceChecker.getLocalMissingWitness
        ⟨SetVector.empty.insertAll [⟨1, []⟩, ⟨2, [5]⟩], 5⟩).isSome = true := by
  have h := getLocalMissingWitness_assertion_passes
    ⟨SetVector.empty.insertAll [⟨1, []⟩, ⟨2, [5]⟩], 5⟩
    (by rw [SIZE_T_RANGE_eq]; decide) (by rw [UNSIGNED_RANGE_eq]; decide) (by decide)
  exact ⟨by decide, by rw [h.2]; rfl⟩

end Swift

/-! ## Theorems about local rename -/

namespace Swift

theorem noLabelRanges_iff (Matcher : NameMatcher) (RefInfo : Option RenameRefInfo) :
    renameAvailabilityInfo.noLabelRanges Matcher RefInfo = true ↔
      ∃ R : RenameRefInfo, RefInfo = some R ∧ R.IsArgLabel = false ∧
        (Matcher R.SF R.Loc).LabelRanges = [] := by
  cases RefInfo with
  | none => simp [renameAvailabilityInfo.noLabelRanges]
  | some R => simp [renameAvailabilityInfo.noLabelRanges, List.isEmpty_iff]

theorem renameAvailabilityInfo_tail_eq (Matcher : NameMatcher) (VD : ValueDecl)
    (RefInfo : Option RenameRefInfo) (info : RefactorAvailabilityInfo)
    (h : renameAvailabilityInfo Matcher VD RefInfo = some info) :
    info = ⟨if VD.Kind.isParamDecl = true ∨ VD.isLocalSymbol = true
        then RefactoringKind.LocalRename else RefactoringKind.GlobalRename,
      renameAvailabilityInfo.AvailKind VD⟩ := by
  have key : ∀ o : Option RefactorAvailabilityInfo,
      (o = none ∨ o = (if VD.Kind.isParamDecl then
          some ⟨RefactoringKind.LocalRename, renameAvailabilityInfo.AvailKind VD⟩
        else if VD.isLocalSymbol then
          some ⟨RefactoringKind.LocalRename, renameAvailabilityInfo.AvailKind VD⟩
        else some ⟨RefactoringKind.GlobalRename, renameAvailabilityInfo.AvailKind VD⟩)) →
      o = some info →
      info = ⟨if VD.Kind.isParamDecl = true ∨ VD.isLocalSymbol = true
        then RefactoringKind.LocalRename else RefactoringKind.GlobalRename,
        renameAvailabilityInfo.AvailKind VD⟩ := by
    intro o ho hs
    rcases ho with ho | ho
    · rw [ho] at hs; cases hs
    · rw [ho] at hs
      cases hp : VD.Kind.isParamDecl <;> cases hl : VD.isLocalSymbol <;>
        simp [hp, hl] at hs ⊢ <;> exact hs.symm
  apply key _ _ h
  simp only [renameAvailabilityInfo]
  split_ifs <;> simp

theorem renameAvailabilityInfo_eq_none_iff (Matcher : NameMatcher) (VD : ValueDecl)
    (RefInfo : Option RenameRefInfo) :
    renameAvailabilityInfo Matcher VD RefInfo = none ↔
      (VD.Kind.isAccessorDecl = true ∨ VD.Kind.isDestructorDecl = true ∨
        (VD.Kind.isConstructorDecl = true ∧ VD.Parameters.length = 0) ∨
        (VD.Kind.isFuncDecl = true ∧ VD.BaseIdentifier = Id_callAsFunction ∧
          VD.Parameters.length = 0) ∨
        ((VD.Kind.isConstructorDecl = true ∨
            (VD.Kind.isFuncDecl = true ∧ VD.BaseIdentifier = Id_callAsFunction)) ∧
          renameAvailabilityInfo.noLabelRanges Matcher RefInfo = true)) := by
  simp only [renameAvailabilityInfo]
  cases hk : VD.Kind <;>
    simp [DeclKind.isAbstractFunctionDecl, DeclKind.isAccessorDecl, DeclKind.isDestructorDecl,
      DeclKind.isConstructorDecl, DeclKind.isFuncDecl, DeclKind.isParamDecl] <;>
    split_ifs <;> simp_all <;> tauto

/-- C5 (refusals): `renameAvailabilityInfo` returns `None` exactly for an
accessor, a destructor, a constructor with no parameters, a function named
`callAsFunction` with no parameters, or a constructor / `callAsFunction`
function queried with reference info that is not on an argument label and for
which the name matcher resolves no label ranges.  It returns a value for every
declaration that is not a function declaration; whether it returns `None` does
not depend on the data that decide the availability classification; and
`getRenameInfo` returns `None` exactly when the cursor is not a value
reference, has no declaration, or `renameAvailabilityInfo` returns `None`. -/
theorem renameAvailabilityInfo_refusals (Q : VarDeclQueries) (Matcher : NameMatcher)
    (VD : ValueDecl) (RefInfo : Option RenameRefInfo) (cursorInfo : ResolvedCursorInfo) :
    (renameAvailabilityInfo Matcher VD RefInfo = none ↔
      (VD.Kind.isAccessorDecl = true ∨ VD.Kind.isDestructorDecl = true ∨
        (VD.Kind.isConstructorDecl = true ∧ VD.Parameters.length = 0) ∨
        (VD.Kind.isFuncDecl = true ∧ VD.BaseIdentifier = Id_callAsFunction ∧
          VD.Parameters.length = 0) ∨
        ((VD.Kind.isConstructorDecl = true ∨
            (VD.Kind.isFuncDecl = true ∧ VD.BaseIdentifier = Id_callAsFunction)) ∧
          ∃ R : RenameRefInfo, RefInfo = some R ∧ R.IsArgLabel = false ∧
            (Matcher R.SF R.Loc).LabelRanges = []))) ∧
    (VD.Kind.isAbstractFunctionDecl = false →
      (renameAvailabilityInfo Matcher VD RefInfo).isSome = true) ∧
    (∀ VD2 : ValueDecl, VD2.Kind = VD.Kind → VD2.Parameters = VD.Parameters →
      VD2.BaseIdentifier = VD.BaseIdentifier →
      (renameAvailabilityInfo Matcher VD2 RefInfo = none ↔
        renameAvailabilityInfo Matcher VD RefInfo = none)) ∧
    (getRenameInfo Q Matcher cursorInfo = none ↔
      ((∀ valueCursor, cursorInfo ≠ ResolvedCursorInfo.ValueRef valueCursor) ∨
        (∃ valueCursor, cursorInfo = ResolvedCursorInfo.ValueRef valueCursor ∧
          valueCursor.typeOrValue = none) ∨
        (∃ valueCursor VD0, cursorInfo = ResolvedCursorInfo.ValueRef valueCursor ∧
          valueCursor.typeOrValue = some VD0 ∧
          renameAvailabilityInfo Matcher (getRenameInfo.VD Q valueCursor VD0)
            (getRenameInfo.refInfo valueCursor) = none))) := by
  refine ⟨?_, ?_, ?_, ?_⟩
  · rw [renameAvailabilityInfo_eq_none_iff, noLabelRanges_iff]
  · intro h
    cases hr : renameAvailabilityInfo Matcher VD RefInfo with
    | some _ => rfl
    | none =>
      rw [renameAvailabilityInfo_eq_none_iff] at hr
      cases hk : VD.Kind <;>
        simp [hk, DeclKind.isAbstractFunctionDecl, DeclKind.isAccessorDecl,
          DeclKind.isDestructorDecl, DeclKind.isConstructorDecl, DeclKind.isFuncDecl] at h hr
  · intro VD2 h1 h2 h3
    rw [renameAvailabilityInfo_eq_none_iff, renameAvailabilityInfo_eq_none_iff, h1, h2, h3]
  · cases cursorInfo with
    | ValueRef valueCursor =>
      cases hv : valueCursor.typeOrValue with
      | none => simp [getRenameInfo, hv]
      | some VD0 =>
        cases hr : renameAvailabilityInfo Matcher (getRenameInfo.VD Q valueCursor VD0)
            (getRenameInfo.refInfo valueCursor) with
        | none => simp [getRenameInfo, hv, hr]
        | some info => simp [getRenameInfo, hv, hr]
    | Invalid => simp [getRenameInfo]
    | ModuleRef => simp [getRenameInfo]
    | ExprStart => simp [getRenameInfo]
    | StmtStart => simp [getRenameInfo]

/-- C5, at concrete inputs: the cursor on the closure's variable is a value
reference with a declaration that is not refused, so `getRenameInfo` returns a
value; the variable is not a function declaration. -/
theorem renameAvailabilityInfo_refusals_witness :
    Example.closureVar.Kind.isAbstractFunctionDecl = false ∧
    (renameAvailabilityInfo Example.matcher Example.closureVar none).isSome = true ∧
    getRenameInfo Example.queries Example.matcher Example.cursorOnClosureVar =
      some ⟨Example.closureVar, ⟨RefactoringKind.LocalRename, RefactorAvailableKind.Available⟩⟩ :=
  ⟨rfl, (renameAvailabilityInfo_refusals Example.queries Example.matcher Example.closureVar none
    Example.cursorOnClosureVar).2.1 rfl, rfl⟩

/-- C6 (availability classification): whenever `renameAvailabilityInfo` returns
a value, its availability kind is the first applicable of: system symbol
(`getRelatedSystemDecl` is non-null), from clang (there is a clang
declaration), no name, no location (the location is invalid), in macro (the
file containing the location fulfils a macro role), and otherwise `Available`.
So the kind is `Available` exactly when none of the five conditions holds, and
`Unavailable_has_no_accessibility` is never produced. -/
theorem renameAvailabilityInfo_classification (Matcher : NameMatcher) (VD : ValueDecl)
    (RefInfo : Option RenameRefInfo) (info : RefactorAvailabilityInfo)
    (h : renameAvailabilityInfo Matcher VD RefInfo = some info) :
    info.AvailableKind =
      (if getRelatedSystemDecl VD ≠ none then RefactorAvailableKind.Unavailable_system_symbol
       else if VD.ClangDecl ≠ none then RefactorAvailableKind.Unavailable_decl_from_clang
       else if VD.hasName = false then RefactorAvailableKind.Unavailable_has_no_name
       else if VD.Loc.isValid = false then RefactorAvailableKind.Unavailable_has_no_location
       else if (∃ file, VD.SourceFileContainingLoc = some file ∧ file.FulfilledMacroRole ≠ none)
         then RefactorAvailableKind.Unavailable_decl_in_macro
       else RefactorAvailableKind.Available) ∧
    (info.AvailableKind = RefactorAvailableKind.Available ↔
      (getRelatedSystemDecl VD = none ∧ VD.ClangDecl = none ∧ VD.hasName = true ∧
        VD.Loc.isValid = true ∧
        ¬ ∃ file, VD.SourceFileContainingLoc = some file ∧ file.FulfilledMacroRole ≠ none)) ∧
    info.AvailableKind ≠ RefactorAvailableKind.Unavailable_has_no_accessibility := by
  have hinfo := renameAvailabilityInfo_tail_eq Matcher VD RefInfo info h
  have hk : info.AvailableKind = renameAvailabilityInfo.AvailKind VD := by rw [hinfo]
  have hmacro : isInMacroExpansionBuffer VD = true ↔
      ∃ file, VD.SourceFileContainingLoc = some file ∧ file.FulfilledMacroRole ≠ none := by
    unfold isInMacroExpansionBuffer
    cases VD.SourceFileContainingLoc with
    | none => simp
    | some file => simp
  rw [hk]
  unfold renameAvailabilityInfo.AvailKind
  cases h1 : getRelatedSystemDecl VD <;> cases h2 : VD.ClangDecl <;>
    cases h3 : VD.hasName <;> cases h4 : VD.Loc.isValid <;>
    by_cases h5 : isInMacroExpansionBuffer VD = true <;>
    simp [h5, ← hmacro]

/-- C6, at a concrete declaration: the variable `x` of the closure has none of
the five conditions and is classified `Available`. -/
theorem renameAvailabilityInfo_classification_witness :
    renameAvailabilityInfo Example.matcher Example.closureVar none =
      some ⟨RefactoringKind.LocalRename, RefactorAvailableKind.Available⟩ ∧
    (getRelatedSystemDecl Example.closureVar = none ∧ Example.closureVar.ClangDecl = none ∧
      Example.closureVar.hasName = true ∧ Example.closureVar.Loc.isValid = true ∧
      ¬ ∃ file, Example.closureVar.SourceFileContainingLoc = some file ∧
        file.FulfilledMacroRole ≠ none) :=
  ⟨rfl, (renameAvailabilityInfo_classification Example.matcher Example.closureVar none
    ⟨RefactoringKind.LocalRename, RefactorAvailableKind.Available⟩ rfl).2.1.1 rfl⟩

/-- C7 (validation for local rename): `getRenameInfoForLocalRename` returns a
`RenameInfo` exactly when `getRenameInfo` yields one whose availability kind is
`Available`, and then adds no diagnostic; in every other case it returns
`None` after adding exactly one diagnostic, at the start location:
`unresolved_location` when there is no info, otherwise the diagnostic that
corresponds to the unavailable kind. -/
theorem getRenameInfoForLocalRename_validates (Q : VarDeclQueries) (Matcher : NameMatcher)
    (CursorInfoRequest : SourceFile → SourceLoc → ResolvedCursorInfo)
    (sourceFile : SourceFile) (startLoc : SourceLoc) (diags : DiagnosticEngine) :
    (∀ info : RenameInfo,
      (getRenameInfoForLocalRename Q Matcher CursorInfoRequest sourceFile startLoc diags).1 =
          some info ↔
        (getRenameInfo Q Matcher (CursorInfoRequest sourceFile startLoc) = some info ∧
          info.Availability.AvailableKind = RefactorAvailableKind.Available)) ∧
    ((getRenameInfoForLocalRename Q Matcher CursorInfoRequest sourceFile startLoc diags).1 =
        none →
      ∃ d : Diagnostic,
        (getRenameInfoForLocalRename Q Matcher CursorInfoRequest sourceFile startLoc diags).2 =
          diags ++ [d] ∧
        d.Loc = startLoc ∧
        some d.ID =
          (match getRenameInfo Q Matcher (CursorInfoRequest sourceFile startLoc) with
           | none => some DiagID.unresolved_location
           | some info => info.Availability.AvailableKind.matchingDiagnostic)) ∧
    ((getRenameInfoForLocalRename Q Matcher CursorInfoRequest sourceFile startLoc diags).1 ≠
        none →
      (getRenameInfoForLocalRename Q Matcher CursorInfoRequest sourceFile startLoc diags).2 =
        diags) := by
  simp only [getRenameInfoForLocalRename]
  generalize getRenameInfo Q Matcher (CursorInfoRequest sourceFile startLoc) = r
  cases r with
  | none =>
    refine ⟨fun info => by simp, fun _ => ⟨⟨startLoc, DiagID.unresolved_location, []⟩, ?_⟩,
      fun h => absurd rfl h⟩
    simp [DiagnosticEngine.diagnose]
  | some ri =>
    obtain ⟨VD, ⟨K, AK⟩⟩ := ri
    cases AK
    case Available =>
      refine ⟨fun info => ?_, fun h => by simp at h, fun _ => rfl⟩
      constructor
      · intro h
        simp only [Option.some.injEq] at h
        subst h
        exact ⟨rfl, rfl⟩
      · rintro ⟨h, _⟩
        simpa using h
    all_goals
      refine ⟨fun info => ?_, fun _ => ⟨⟨startLoc, _, _⟩, rfl, rfl, rfl⟩, fun h => absurd rfl h⟩
      constructor
      · intro h
        simp at h
      · rintro ⟨h, h2⟩
        simp only [Option.some.injEq] at h
        subst h
        simp at h2

/-- C7, at concrete inputs: the cursor resolves to the closure's variable,
which is available, so the info is returned and no diagnostic is added. -/
theorem getRenameInfoForLocalRename_validates_witness :
    (getRenameInfoForLocalRename Example.queries Example.matcher
        (fun _ _ => Example.cursorOnClosureVar) Example.file ⟨20⟩ []).1 =
      some ⟨Example.closureVar, ⟨RefactoringKind.LocalRename, RefactorAvailableKind.Available⟩⟩ :=
  ((getRenameInfoForLocalRename_validates Example.queries Example.matcher
    (fun _ _ => Example.cursorOnClosureVar) Example.file ⟨20⟩ []).1 _).2 ⟨rfl, rfl⟩

/-- C8 (local versus global rename): whenever `renameAvailabilityInfo` returns
a value, its refactoring kind is `LocalRename` if the declaration is a
parameter declaration or the indexer considers it a local symbol, and
`GlobalRename` otherwise; the kind is the same for any two declarations that
agree on these two tests, whatever their availability; and a parameter always
gets a value, of kind `LocalRename`, with its own availability kind. -/
theorem renameAvailabilityInfo_rename_kind (Matcher : NameMatcher) (VD : ValueDecl)
    (RefInfo : Option RenameRefInfo) :
    (∀ info : RefactorAvailabilityInfo,
      renameAvailabilityInfo Matcher VD RefInfo = some info →
      info.Kind = (if VD.Kind.isParamDecl = true ∨ VD.isLocalSymbol = true
        then RefactoringKind.LocalRename else RefactoringKind.GlobalRename)) ∧
    (∀ (VD2 : ValueDecl) (RefInfo2 : Option RenameRefInfo) (info info2 : RefactorAvailabilityInfo),
      VD2.Kind.isParamDecl = VD.Kind.isParamDecl → VD2.isLocalSymbol = VD.isLocalSymbol →
      renameAvailabilityInfo Matcher VD RefInfo = some info →
      renameAvailabilityInfo Matcher VD2 RefInfo2 = some info2 →
      info2.Kind = info.Kind) ∧
    (VD.Kind.isParamDecl = true →
      renameAvailabilityInfo Matcher VD RefInfo =
        some ⟨RefactoringKind.LocalRename, renameAvailabilityInfo.AvailKind VD⟩) := by
  refine ⟨fun info h => ?_, fun VD2 RefInfo2 info info2 h1 h2 h h' => ?_, fun hp => ?_⟩
  · rw [renameAvailabilityInfo_tail_eq Matcher VD RefInfo info h]
  · rw [renameAvailabilityInfo_tail_eq Matcher VD RefInfo info h,
      renameAvailabilityInfo_tail_eq Matcher VD2 RefInfo2 info2 h', h1, h2]
  · cases hk : VD.Kind <;> simp [hk, DeclKind.isParamDecl] at hp
    simp [renameAvailabilityInfo, hk, DeclKind.isParamDecl, DeclKind.isAbstractFunctionDecl]

/-- C8, at a concrete declaration: a parameter of a non-user module is
unavailable as a system symbol and still gets `LocalRename`. -/
theorem renameAvailabilityInfo_rename_kind_witness :
    Example.systemParam.Kind.isParamDecl = true ∧
    renameAvailabilityInfo Example.matcher Example.systemParam none =
      some ⟨RefactoringKind.LocalRename, RefactorAvailableKind.Unavailable_system_symbol⟩ :=
  ⟨rfl, (renameAvailabilityInfo_rename_kind Example.matcher Example.systemParam none).2.2 rfl⟩

theorem localRenameLocs_RenameScope_of_file (SF : SourceFile) (renameInfo : RenameInfo) :
    localRenameLocs.RenameScope (some SF) renameInfo = some SF.asDeclContext := by
  simp [localRenameLocs.RenameScope]

/-- C9 fails on the code: for the variable `x` declared in a closure of the
file, the rename scope is the closure, a child context of the (non-null) source
file, and yet the context handed to the indexer is the whole file: the test
`if (!RenameScope)` is false for every non-null file, so the narrowing is never
reached. -/
theorem localRenameLocs_indexes_whole_file :
    getRenameScope Example.closureVar = some Example.closureCtx ∧
    Example.closureCtx.isChildContextOf (some Example.file.asDeclContext) = true ∧
    localRenameLocs (fun scope _ => scope) (some Example.file)
        ⟨Example.closureVar, ⟨RefactoringKind.LocalRename, RefactorAvailableKind.Available⟩⟩ =
      some Example.file.asDeclContext ∧
    Example.file.asDeclContext ≠ Example.closureCtx := by
  decide

/-- C10 (rename scope): the result of `getRenameScope` is the parent of the
declaration's context when the kind of that context is `GenericTypeDecl`,
`ExtensionDecl`, `TopLevelCodeDecl`, `SubscriptDecl`, `EnumElementDecl` or
`AbstractFunctionDecl`, and the context itself for every other kind; so the
result is never null, and it is the declaration's context or its parent, which
contains it. -/
theorem getRenameScope_spec (VD : ValueDecl) :
    getRenameScope VD =
      (if VD.DeclCtx.getContextKind = DeclContextKind.GenericTypeDecl ∨
          VD.DeclCtx.getContextKind = DeclContextKind.ExtensionDecl ∨
          VD.DeclCtx.getContextKind = DeclContextKind.TopLevelCodeDecl ∨
          VD.DeclCtx.getContextKind = DeclContextKind.SubscriptDecl ∨
          VD.DeclCtx.getContextKind = DeclContextKind.EnumElementDecl ∨
          VD.DeclCtx.getContextKind = DeclContextKind.AbstractFunctionDecl
        then VD.DeclCtx.getParent else some VD.DeclCtx) ∧
    ((VD.DeclCtx.getContextKind = DeclContextKind.AbstractClosureExpr ∨
        VD.DeclCtx.getContextKind = DeclContextKind.Initializer ∨
        VD.DeclCtx.getContextKind = DeclContextKind.SerializedLocal ∨
        VD.DeclCtx.getContextKind = DeclContextKind.Package ∨
        VD.DeclCtx.getContextKind = DeclContextKind.Module ∨
        VD.DeclCtx.getContextKind = DeclContextKind.FileUnit ∨
        VD.DeclCtx.getContextKind = DeclContextKind.MacroDecl) →
      getRenameScope VD = some VD.DeclCtx) ∧
    (∃ Scope : DeclContext, getRenameScope VD = some Scope ∧
      (Scope = VD.DeclCtx ∨
        (VD.DeclCtx.getParent = some Scope ∧
          VD.DeclCtx.isChildContextOf (some Scope) = true))) := by
  unfold getRenameScope
  cases hd : VD.DeclCtx with
  | root isPackage id =>
    cases isPackage <;> simp [DeclContext.getContextKind]
  | child kind id parent =>
    cases kind <;> simp [DeclContext.getContextKind, DeclContext.getParent,
      DeclContext.isChildContextOf]

/-- C10, at concrete declarations: the scope of a parameter of the top-level
function is the file (the parent of the function), that of the closure's
variable is the closure itself. -/
theorem getRenameScope_spec_witness :
    getRenameScope Example.systemParam = some Example.fileCtx ∧
    getRenameScope Example.closureVar = some Example.closureCtx :=
  ⟨(getRenameScope_spec Example.systemParam).1.trans rfl,
    (getRenameScope_spec Example.closureVar).2.1 (by decide)⟩

end Swift
